import Mathlib

/-!
Verification of the transaction execution engine of the sol-trade-sdk
repository: a shallow embedding of the nonce coordinator
(src/common/nonce_cache.rs, src/trading/common/nonce_manager.rs), the
transaction assembly pipeline (src/trading/common/transaction_builder.rs,
src/trading/common/compute_budget_manager.rs), the bounded LRU caches
(src/common/fast_fn.rs over the clru crate), the parallel racing executor
(src/trading/core/parallel.rs) and the confirmation-retry loop
(src/swqos/jito.rs), together with theorems settling the specified
properties.
-/

namespace SolTradeSdk

/-- Ledger addresses (solana_sdk::pubkey::Pubkey), abstracted to Nat. -/
abbrev Pubkey := Nat

/-- 32-byte hashes (solana_hash::Hash).  Hash::default() is modelled as 0. -/
abbrev LedgerHash := Nat

/-- Transaction signatures, abstracted to Nat. -/
abbrev Signature := Nat

/-- Tip amounts are f64 in the source; the engine only ever consumes them
through the textual rendering fed to sol_str_to_lamports
(transaction_builder.rs line 56), so a tip amount is embedded as that
decimal string. -/
abbrev TipAmount := String

/-- SwqosType from src/swqos/mod.rs lines 71-83: the fixed enum of relay
endpoint kinds, with a plain/default variant. -/
inductive SwqosType
  | jito
  | nextBlock
  | zeroSlot
  | temporal
  | bloxroute
  | node1
  | flashBlock
  | blockRazor
  | astralane
  | default
deriving DecidableEq, Repr

/-- PriorityFee from src/common/types.rs lines 33-43.  The buy_tip_fees and
sell_tip_fees lists carry the per-endpoint tip amounts, matching the order
of the swqos client list. -/
structure PriorityFee where
  tip_unit_limit : Nat
  tip_unit_price : Nat
  rpc_unit_limit : Nat
  rpc_unit_price : Nat
  buy_tip_fees : List TipAmount
  sell_tip_fees : List TipAmount
deriving DecidableEq, Repr

/-- The instructions the execution engine itself emits or forwards:
nonce-advance (solana_system_interface::instruction::advance_nonce_account),
the three compute-budget directives
(solana_sdk::compute_budget::ComputeBudgetInstruction), the native value
transfer used for tips, and opaque business instructions coming from the
per-protocol builders (identified by an id, forwarded verbatim). -/
inductive Instruction
  | advanceNonceAccount (nonce_account : Pubkey) (authority : Pubkey)
  | setLoadedAccountsDataSizeLimit (limit : Nat)
  | setComputeUnitPrice (price : Nat)
  | setComputeUnitLimit (limit : Nat)
  | transfer (source : Pubkey) (dest : Pubkey) (lamports : Nat)
  | business (id : Nat)
deriving DecidableEq, Repr

/-- Recognizer for the compute-budget instruction family. -/
def Instruction.isComputeBudget : Instruction → Bool
  | .setLoadedAccountsDataSizeLimit _ => true
  | .setComputeUnitPrice _ => true
  | .setComputeUnitLimit _ => true
  | _ => false

/-- Recognizer for the nonce-advance instruction. -/
def Instruction.isAdvanceNonce : Instruction → Bool
  | .advanceNonceAccount _ _ => true
  | _ => false

/-- Recognizer for the native value-transfer instruction (tips). -/
def Instruction.isTransfer : Instruction → Bool
  | .transfer _ _ _ => true
  | _ => false

/-- NonceInfo from src/common/nonce_cache.rs lines 13-22: the single
process-wide durable-nonce state (here passed explicitly instead of read
through the NonceCache singleton). -/
structure NonceInfo where
  nonce_account : Option Pubkey
  current_nonce : LedgerHash
  next_buy_time : Int
  used : Bool
deriving DecidableEq, Repr

/-- NonceCache::mark_used from src/common/nonce_cache.rs lines 95-98:
update_nonce_info_partial(None, None, None, Some(true)), i.e. set the used
flag. -/
def mark_used (st : NonceInfo) : NonceInfo :=
  { st with used := true }

/-- Errors raised by the assembly pipeline (the anyhow errors of
nonce_manager.rs lines 23 and 26). -/
inductive TxBuildError
  | nonceUsed
  | nonceNotReady
deriving DecidableEq, Repr

/-- add_nonce_instruction from src/trading/common/nonce_manager.rs lines
13-36.  The Rust function reads the global NonceCache and never writes it
(in particular it never calls mark_used, although its own doc comment says
"On success, locks and marks nonce as used"); the returned NonceInfo is
the cache state after the call, which is therefore the input state
unchanged on every path. -/
def add_nonce_instruction (st : NonceInfo) (payer : Pubkey)
    (instructions : List Instruction) :
    Except TxBuildError (NonceInfo × List Instruction) :=
  match st.nonce_account with
  | some nonce_pubkey =>
    if st.used then Except.error TxBuildError.nonceUsed
    else if st.current_nonce = 0 then Except.error TxBuildError.nonceNotReady
    else Except.ok (st, instructions ++ [Instruction.advanceNonceAccount nonce_pubkey payer])
  | none => Except.ok (st, instructions)

/-- get_transaction_blockhash from src/trading/common/nonce_manager.rs
lines 40-49: the nonce freshness token replaces the recent blockhash
whenever a nonce account is configured, with no regard to the used flag. -/
def get_transaction_blockhash (st : NonceInfo) (recent_blockhash : LedgerHash) : LedgerHash :=
  if st.nonce_account.isSome then st.current_nonce else recent_blockhash

/-- compute_budget_instructions from
src/trading/common/compute_budget_manager.rs lines 22-59 (the pure value it
computes and caches; the memoizing DashMap stores exactly this value for
the key, so hit and miss return the same list): for buys a
data-size-limit instruction plus unit-price and unit-limit, for sells
unit-price and unit-limit only, with the (price, limit) pair chosen by
is_rpc. -/
def compute_budget_instructions (priority_fee : PriorityFee) (data_size_limit : Nat)
    (is_rpc : Bool) (is_buy : Bool) : List Instruction :=
  let unit_price := if is_rpc then priority_fee.rpc_unit_price else priority_fee.tip_unit_price
  let unit_limit := if is_rpc then priority_fee.rpc_unit_limit else priority_fee.tip_unit_limit
  (if is_buy then [Instruction.setLoadedAccountsDataSizeLimit data_size_limit] else [])
    ++ [Instruction.setComputeUnitPrice unit_price, Instruction.setComputeUnitLimit unit_limit]

/-- Modelled from the spec: the helper add_compute_budget_instructions is
imported and called by src/trading/common/transaction_builder.rs line 46
but its body is not under src/ (compute_budget_manager.rs only defines
compute_budget_instructions).  Per the spec ("Prepend compute-budget
instructions: for buys, a data-size-limit instruction plus
unit-price/unit-limit instructions; for sells, unit-price/unit-limit
only") and the caller's shape (it extends the mutable instruction vector),
it appends the instructions computed by compute_budget_instructions. -/
def add_compute_budget_instructions (instructions : List Instruction)
    (priority_fee : PriorityFee) (data_size_limit : Nat) (is_rpc : Bool) (is_buy : Bool) :
    List Instruction :=
  instructions ++ compute_budget_instructions priority_fee data_size_limit is_rpc is_buy

/-- The numeric value of a decimal digit character, none for any other
character. -/
def charDigit (c : Char) : Option Nat :=
  if decide (('0' : Char) ≤ c ∧ c ≤ ('9' : Char)) then some (c.toNat - ('0' : Char).toNat)
  else none

/-- Base-10 value of a digit string; none if any character is not a digit. -/
def digitsToNat (cs : List Char) : Option Nat :=
  cs.foldl (fun acc c => acc.bind (fun n => (charDigit c).map (fun d => n * 10 + d))) (some 0)

/-- Model of the external solana_sdk::native_token::sol_str_to_lamports
conversion consumed at transaction_builder.rs line 56: parses a decimal
SOL string into lamports (10^9 lamports per SOL), failing (none) when any
character is not a decimal digit (so in particular on the leading minus
sign of a negative rendering) or when more than nine fractional digits are
present. -/
def sol_str_to_lamports (s : String) : Option Nat :=
  match s.data.splitOn '.' with
  | [sol] =>
    if sol.isEmpty then none
    else (digitsToNat sol).map (fun n => n * 1000000000)
  | [sol, frac] =>
    if sol.isEmpty || frac.isEmpty then none
    else if frac.length > 9 then none
    else (digitsToNat sol).bind (fun n =>
      (digitsToNat frac).map (fun f =>
        n * 1000000000 + f * 10 ^ (9 - frac.length)))
  | _ => none

/-- The assembled transaction as far as the engine's claims observe it:
the fee payer (sole signer), the full ordered instruction list of the
compiled message, and the blockhash the message is compiled with.
Lookup-table resolution and v0 message compilation
(build_versioned_transaction, transaction_builder.rs lines 81-110, with no
middleware installed so the instruction list passes through unchanged) do
not alter these fields. -/
structure VersionedTransaction where
  fee_payer : Pubkey
  instructions : List Instruction
  blockhash : LedgerHash
deriving DecidableEq, Repr

/-- build_transaction from src/trading/common/transaction_builder.rs lines
22-78, with the global nonce cache state passed explicitly: for buys, add
the nonce-advance instruction first (propagating its error); append the
compute-budget instructions (is_rpc is passed as true at line 46); append
the business instructions verbatim; when with_tip, append one transfer of
sol_str_to_lamports(tip_amount).unwrap_or(0) lamports to the tip account;
compile with get_transaction_blockhash for buys and the caller's recent
blockhash for sells. -/
def build_transaction (nonce : NonceInfo) (payer : Pubkey) (priority_fee : PriorityFee)
    (business_instructions : List Instruction) (recent_blockhash : LedgerHash)
    (data_size_limit : Nat) (is_buy : Bool) (with_tip : Bool)
    (tip_account : Pubkey) (tip_amount : TipAmount) :
    Except TxBuildError VersionedTransaction :=
  match (if is_buy then add_nonce_instruction nonce payer [] else Except.ok (nonce, [])) with
  | Except.error e => Except.error e
  | Except.ok (_, instructions) =>
    let instructions :=
      add_compute_budget_instructions instructions priority_fee data_size_limit true is_buy
    let instructions := instructions ++ business_instructions
    let instructions :=
      if with_tip then
        instructions ++ [Instruction.transfer payer tip_account
          ((sol_str_to_lamports tip_amount).getD 0)]
      else instructions
    let blockhash :=
      if is_buy then get_transaction_blockhash nonce recent_blockhash else recent_blockhash
    Except.ok { fee_payer := payer, instructions := instructions, blockhash := blockhash }

/-- Outcome of one spawned endpoint task as observed through the
completion channel of parallel_execute (parallel.rs lines 147-156): the
task resolved to a signature (Ok(Ok(sig))), the task resolved to an error
(Ok(Err(e)), carrying the error text), or the join itself failed
(Err(join_error)). -/
inductive TaskOutcome
  | success (sig : Signature)
  | taskError (msg : String)
  | joinError (msg : String)
deriving DecidableEq, Repr

/-- Whether a task outcome is a successful signature. -/
def TaskOutcome.isSuccess : TaskOutcome → Bool
  | .success _ => true
  | _ => false

/-- String containment test (Rust str::contains). -/
def containsSub (s pat : String) : Bool :=
  decide (pat.data <:+: s.data)

/-- The error message pushed for one failed task in the confirmed-wait
branch of parallel_execute (parallel.rs lines 178-187): an error text that
already carries signature information is kept verbatim, any other task
error is wrapped as "Task error: ...", and a join failure as
"Join error: ...".  (Only applied to non-success outcomes; a success never
pushes a message.) -/
def failMessage : TaskOutcome → String
  | .success _ => ""
  | .taskError e =>
    if containsSub e "Signature: " || containsSub e "Sig: " || containsSub e "Transaction " then e
    else "Task error: " ++ e
  | .joinError e => "Join error: " ++ e

/-- The ways parallel_execute fails as a whole: the pre-flight
configuration errors (parallel.rs lines 77-89), the single-receive failure
of the no-wait branch (line 170), and the aggregate all-failed error (line
192) carrying one message per failed endpoint. -/
inductive RaceError
  | config (msg : String)
  | noSignature
  | allFailed (msgs : List String)
deriving DecidableEq, Repr

/-- The receive loop of the confirmed-wait branch of parallel_execute
(parallel.rs lines 173-192): drain the completion channel in arrival
order, return the first successful signature, collect one formatted
message per failure, and fail with the aggregate when the channel closes
with no success. -/
def raceLoop : List TaskOutcome → List String → Except RaceError Signature
  | [], errors => Except.error (RaceError.allFailed errors)
  | TaskOutcome.success sig :: _, _ => Except.ok sig
  | TaskOutcome.taskError e :: rest, errors =>
    raceLoop rest (errors ++ [failMessage (TaskOutcome.taskError e)])
  | TaskOutcome.joinError e :: rest, errors =>
    raceLoop rest (errors ++ [failMessage (TaskOutcome.joinError e)])

/-- The result-aggregation phase of parallel_execute (parallel.rs lines
159-192) as a function of the task outcomes in arrival (completion) order.
When wait_transaction_confirmed is false (lines 162-171) exactly one
result is received: a success is returned, and anything else — including
an empty channel — falls through to the "No transaction signature
available" error.  When it is true, the receive loop drains the channel. -/
def race_receive (wait_transaction_confirmed : Bool) (arrivals : List TaskOutcome) :
    Except RaceError Signature :=
  if !wait_transaction_confirmed then
    match arrivals with
    | TaskOutcome.success sig :: _ => Except.ok sig
    | TaskOutcome.taskError _ :: _ => Except.error RaceError.noSignature
    | TaskOutcome.joinError _ :: _ => Except.error RaceError.noSignature
    | [] => Except.error RaceError.noSignature
  else
    raceLoop arrivals []

/-- One spawned endpoint task of parallel_execute (lines 93-145): the
endpoint's position i in the client list, its SwqosType, and the tip
amount the task reads — priority_fee.buy_tip_fees[i] for buys AND sells
(line 112), recorded as none when the index is out of bounds (where the
Rust indexing panics). -/
structure SpawnedTask where
  index : Nat
  swqos_type : SwqosType
  tip_amount : Option TipAmount
deriving DecidableEq, Repr

/-- The spawn loop of parallel_execute (parallel.rs lines 93-145): for
each client index i, skip the endpoint when with_tip is false and its kind
is not Default (lines 95-97); otherwise spawn a task that reads
buy_tip_fees[i] as its tip amount (line 112). -/
def spawn_tasks (swqos_clients : List SwqosType) (priority_fee : PriorityFee)
    (with_tip : Bool) : List SpawnedTask :=
  swqos_clients.enum.filterMap (fun p =>
    if !with_tip && !(p.2 = SwqosType.default : Bool) then none
    else some { index := p.1, swqos_type := p.2, tip_amount := priority_fee.buy_tip_fees[p.1]? })

/-- The pre-flight phase of parallel_execute (parallel.rs lines 74-145):
the buy-side check (lines 77-82) fires when the client count exceeds the
buy tip list length or that list is empty; the sell-side check (lines
83-89) fires only when with_tip is ALSO false; when neither fires, the
per-endpoint tasks are spawned (each task performing a network send). -/
def parallel_execute_prepare (swqos_clients : List SwqosType)
    (priority_fee : PriorityFee) (is_buy : Bool) (with_tip : Bool) :
    Except RaceError (List SpawnedTask) :=
  if is_buy
      && (decide (swqos_clients.length > priority_fee.buy_tip_fees.length)
          || priority_fee.buy_tip_fees.isEmpty) then
    Except.error (RaceError.config "Number of tip clients exceeds the configured buy tip fees. Please configure buy_tip_fees to match swqos_clients")
  else if !is_buy && !with_tip
      && (decide (swqos_clients.length > priority_fee.sell_tip_fees.length)
          || priority_fee.sell_tip_fees.isEmpty) then
    Except.error (RaceError.config "Number of tip clients exceeds the configured sell tip fees. Please configure sell_tip_fees to match swqos_clients")
  else
    Except.ok (spawn_tasks swqos_clients priority_fee with_tip)

/-- Outcome of one confirmation poll
(swqos/common.rs poll_transaction_confirmation as consumed by
jito.rs line 176): confirmed, a failure whose message contains
"confirmation timed out", or any other failure. -/
inductive PollOutcome
  | confirmed
  | timedOut
  | otherError (msg : String)
deriving DecidableEq, Repr

/-- Failure of the confirmation-retry loop: all attempts timed out (with
the total attempt count reported in the message), or a non-timeout error
surfaced as-is. -/
inductive ConfirmError
  | timedOutAfterRetries (total_attempts : Nat)
  | other (msg : String)
deriving DecidableEq, Repr

/-- The body of the for-loop of confirm_transaction_with_retry
(src/swqos/jito.rs lines 175-208), with poll giving the outcome of the
attempt-indexed confirmation poll.  The remaining parameter is the number
of loop iterations still to come after the current one
(max_retries - attempt), so the attempt < max_retries test of line 187 is
the test remaining > 0: a confirmed poll returns Ok, a non-timeout error
returns immediately, a timeout retries while iterations remain and
otherwise fails with the all-timeouts error of line 198. -/
def confirm_attempt_go (poll : Nat → PollOutcome) (max_retries : Nat) :
    Nat → Nat → Except ConfirmError Unit
  | attempt, remaining =>
    match poll attempt, remaining with
    | PollOutcome.confirmed, _ => Except.ok ()
    | PollOutcome.otherError m, _ => Except.error (ConfirmError.other m)
    | PollOutcome.timedOut, r + 1 => confirm_attempt_go poll max_retries (attempt + 1) r
    | PollOutcome.timedOut, 0 =>
      Except.error (ConfirmError.timedOutAfterRetries (max_retries + 1))

/-- confirm_transaction_with_retry from src/swqos/jito.rs lines 167-212:
max_retries = 2 (line 173), so the loop runs attempts 0..=2. -/
def confirm_transaction_with_retry (poll : Nat → PollOutcome) : Except ConfirmError Unit :=
  confirm_attempt_go poll 2 0 2

/-- The instruction-cache key from src/common/fast_fn.rs lines 21-32. -/
inductive InstructionCacheKey
  | createAssociatedTokenAccount (payer : Pubkey) (owner : Pubkey) (mint : Pubkey)
      (token_program : Pubkey) (use_seed : Bool)
  | closeWsolAccount (payer : Pubkey) (wsol_token_account : Pubkey)
deriving DecidableEq, Repr

/-- MAX_INSTRUCTION_CACHE_SIZE from src/common/fast_fn.rs line 15 (the PDA
and ATA caches use the same 10000 bound, lines 13-14). -/
def MAX_INSTRUCTION_CACHE_SIZE : Nat := 10000

/-- Model of clru::CLruCache with unit weights as used by fast_fn.rs: the
capacity fixed at construction and the entry list in
most-recently-inserted-or-promoted-first order. -/
structure CLruCache (K V : Type) where
  capacity : Nat
  entries : List (K × V)
deriving Repr

/-- CLruCache::new: an empty cache of the given capacity. -/
def CLruCache.emptyCache (K V : Type) (capacity : Nat) : CLruCache K V :=
  { capacity := capacity, entries := [] }

/-- clru's CLruCache::peek: returns the value for the key WITHOUT updating
the LRU order (unlike get) — this is the read used on every cache hit in
fast_fn.rs (lines 48, 163, 239). -/
def CLruCache.peek {K V : Type} [DecidableEq K] (c : CLruCache K V) (k : K) : Option V :=
  (c.entries.find? (fun p => decide (p.1 = k))).map (fun p => p.2)

/-- clru's CLruCache::put: insert the pair as most recently used, removing
any previous entry for the key, and evict the least recently used entry
when the cache would exceed its capacity. -/
def CLruCache.put {K V : Type} [DecidableEq K] (c : CLruCache K V) (k : K) (v : V) :
    CLruCache K V :=
  { c with entries := ((k, v) :: c.entries.eraseP (fun p => decide (p.1 = k))).take c.capacity }

/-- get_cached_instructions from src/common/fast_fn.rs lines 41-63, with
the global INSTRUCTION_CACHE threaded explicitly: on a hit the cached
value is returned through peek (read lock, LRU order untouched); on a miss
the computed value is returned and put into the cache (write lock). -/
def get_cached_instructions (cache : CLruCache InstructionCacheKey (List Instruction))
    (cache_key : InstructionCacheKey) (compute_fn : Unit → List Instruction) :
    List Instruction × CLruCache InstructionCacheKey (List Instruction) :=
  match cache.peek cache_key with
  | some cached_instruction => (cached_instruction, cache)
  | none =>
    let instruction := compute_fn ()
    (instruction, cache.put cache_key instruction)

/-- Sequential driver for the cache claims: feed a list of keys through
get_cached_instructions, threading the cache state. -/
def cacheInsertAll (cache : CLruCache InstructionCacheKey (List Instruction))
    (keys : List InstructionCacheKey) (f : InstructionCacheKey → List Instruction) :
    CLruCache InstructionCacheKey (List Instruction) :=
  keys.foldl (fun c k => (get_cached_instructions c k (fun _ => f k)).2) cache

/-! Concrete configurations used by witnesses and counterexamples. -/

/-- A priority-fee configuration with one buy tip amount and one
(different) sell tip amount. -/
def pfStd : PriorityFee :=
  { tip_unit_limit := 100000, tip_unit_price := 1000,
    rpc_unit_limit := 200000, rpc_unit_price := 2000,
    buy_tip_fees := ["0.1"], sell_tip_fees := ["0.2"] }

/-- A nonce state in the Ready phase: account configured, fresh nonzero
token, not used. -/
def readyNonce : NonceInfo :=
  { nonce_account := some 5, current_nonce := 77, next_buy_time := 0, used := false }

/-- A nonce state with no nonce account configured. -/
def noNonce : NonceInfo :=
  { nonce_account := none, current_nonce := 0, next_buy_time := 0, used := false }

/-- C5: add_nonce_instruction is a no-op success when no nonce account is
configured; fails with the nonce-used error when used is set; fails with
the not-ready error when the token is the zero value; otherwise succeeds
and appends exactly one nonce-advance instruction. -/
theorem add_nonce_instruction_gating (st : NonceInfo) (payer : Pubkey)
    (ins : List Instruction) :
    (st.nonce_account = none → add_nonce_instruction st payer ins = Except.ok (st, ins))
    ∧ (∀ npk, st.nonce_account = some npk → st.used = true →
        add_nonce_instruction st payer ins = Except.error TxBuildError.nonceUsed)
    ∧ (∀ npk, st.nonce_account = some npk → st.used = false → st.current_nonce = 0 →
        add_nonce_instruction st payer ins = Except.error TxBuildError.nonceNotReady)
    ∧ (∀ npk, st.nonce_account = some npk → st.used = false → st.current_nonce ≠ 0 →
        add_nonce_instruction st payer ins
          = Except.ok (st, ins ++ [Instruction.advanceNonceAccount npk payer])) := by
  refine ⟨fun h => ?_, fun npk h hu => ?_, fun npk h hu hz => ?_, fun npk h hu hz => ?_⟩
  · simp [add_nonce_instruction, h]
  · simp [add_nonce_instruction, h, hu]
  · simp [add_nonce_instruction, h, hu, hz]
  · simp [add_nonce_instruction, h, hu, hz]

/-- Witness for add_nonce_instruction_gating at the Ready state. -/
theorem add_nonce_instruction_gating_witness :
    readyNonce.current_nonce ≠ 0
    ∧ add_nonce_instruction readyNonce 1 []
        = Except.ok (readyNonce, [Instruction.advanceNonceAccount 5 1]) :=
  ⟨by decide, (add_nonce_instruction_gating readyNonce 1 []).2.2.2 5 rfl rfl (by decide)⟩

/-- C4: the claim (and the source doc comment of add_nonce_instruction,
nonce_manager.rs line 12, "On success, locks and marks nonce as used")
says the used flag is true immediately after the nonce-advance
instruction is included; the code never calls mark_used, so the nonce
state after a successful inclusion still has used = false, while the
claimed mark_used transition would set it to true. -/
theorem add_nonce_instruction_leaves_used_false :
    add_nonce_instruction readyNonce 1 []
      = Except.ok (readyNonce, [Instruction.advanceNonceAccount 5 1])
    ∧ readyNonce.used = false
    ∧ (mark_used readyNonce).used = true :=
  ⟨rfl, rfl, rfl⟩

/-- C6: the blockhash of every assembled transaction is the nonce
freshness token for a buy with a nonce account configured (with no regard
to the used flag), and the caller-supplied recent blockhash for a buy
without a nonce account and for every sell. -/
theorem build_transaction_blockhash (nonce : NonceInfo) (payer : Pubkey)
    (pf : PriorityFee) (business : List Instruction) (recent : LedgerHash)
    (dsl : Nat) (is_buy with_tip : Bool) (ta : Pubkey) (amt : TipAmount)
    (tx : VersionedTransaction)
    (h : build_transaction nonce payer pf business recent dsl is_buy with_tip ta amt
      = Except.ok tx) :
    tx.blockhash
      = if is_buy then
          (if nonce.nonce_account.isSome then nonce.current_nonce else recent)
        else recent := by
  cases is_buy with
  | false =>
    simp only [build_transaction, if_neg, Bool.false_eq_true, if_false] at h
    cases h
    rfl
  | true =>
    simp only [build_transaction, if_pos, if_true] at h
    cases ha : add_nonce_instruction nonce payer [] with
    | error e => rw [ha] at h; cases h
    | ok p =>
      rw [ha] at h
      cases h
      simp [get_transaction_blockhash]

/-- The transaction assembled by the blockhash witness: a buy at the
Ready nonce state against recent blockhash 123. -/
def txNonceBuy : VersionedTransaction :=
  { fee_payer := 1,
    instructions := [Instruction.advanceNonceAccount 5 1,
      Instruction.setLoadedAccountsDataSizeLimit 512,
      Instruction.setComputeUnitPrice 2000,
      Instruction.setComputeUnitLimit 200000,
      Instruction.business 9],
    blockhash := 77 }

/-- Witness for build_transaction_blockhash: a buy at the Ready nonce
state compiles with the nonce token 77 instead of the recent blockhash
123. -/
theorem build_transaction_blockhash_witness :
    build_transaction readyNonce 1 pfStd [Instruction.business 9] 123 512 true false 0 "0.1"
      = Except.ok txNonceBuy
    ∧ txNonceBuy.blockhash
      = if (true : Bool) then
          (if readyNonce.nonce_account.isSome then readyNonce.current_nonce else 123)
        else 123 :=
  ⟨rfl, build_transaction_blockhash readyNonce 1 pfStd [Instruction.business 9] 123 512 true false
    0 "0.1" txNonceBuy rfl⟩

/-- C10: with tipping enabled the assembled plan always ends in exactly
one tip transfer, whose lamport value is the sol_str_to_lamports
conversion of the tip amount with conversion failure silently mapped to 0
(transaction_builder.rs line 56, unwrap_or(0)); in particular a sell
assembly with an unconvertible tip amount still succeeds, carrying a
0-lamport transfer. -/
theorem build_transaction_tip_conversion (nonce : NonceInfo) (payer : Pubkey)
    (pf : PriorityFee) (business : List Instruction) (recent : LedgerHash)
    (dsl : Nat) (is_buy : Bool) (ta : Pubkey) (amt : TipAmount) :
    (∀ tx, build_transaction nonce payer pf business recent dsl is_buy true ta amt
        = Except.ok tx →
      tx.instructions.getLast?
        = some (Instruction.transfer payer ta ((sol_str_to_lamports amt).getD 0)))
    ∧ (sol_str_to_lamports amt = none →
      ∀ tx, build_transaction nonce payer pf business recent dsl is_buy true ta amt
          = Except.ok tx →
        tx.instructions.getLast? = some (Instruction.transfer payer ta 0))
    ∧ (is_buy = false →
      build_transaction nonce payer pf business recent dsl is_buy true ta amt
        = Except.ok
          { fee_payer := payer,
            instructions :=
              add_compute_budget_instructions [] pf dsl true false ++ business
                ++ [Instruction.transfer payer ta ((sol_str_to_lamports amt).getD 0)],
            blockhash := recent }) := by
  have hmain : ∀ tx, build_transaction nonce payer pf business recent dsl is_buy true ta amt
      = Except.ok tx →
      tx.instructions.getLast?
        = some (Instruction.transfer payer ta ((sol_str_to_lamports amt).getD 0)) := by
    intro tx h
    rw [build_transaction] at h
    cases ha : (if is_buy then add_nonce_instruction nonce payer []
        else Except.ok (nonce, ([] : List Instruction))) with
    | error e => rw [ha] at h; exact Except.noConfusion h
    | ok p =>
      rw [ha] at h
      simp only [if_pos, if_true] at h
      cases h
      simp [List.getLast?_concat]
  refine ⟨hmain, fun hn tx h => ?_, fun hb => ?_⟩
  · have := hmain tx h
    rw [hn] at this
    exact this
  · subst hb
    rw [build_transaction]
    rfl

/-- Witness for build_transaction_tip_conversion: the 10-fractional-digit
rendering "0.1234567891" fails conversion, and the sell assembly succeeds
with a 0-lamport tip transfer as its final instruction. -/
theorem build_transaction_tip_conversion_witness :
    sol_str_to_lamports "0.1234567891" = none
    ∧ build_transaction noNonce 1 pfStd [] 9 0 false true 3 "0.1234567891"
      = Except.ok
        { fee_payer := 1,
          instructions :=
            add_compute_budget_instructions [] pfStd 0 true false ++ []
              ++ [Instruction.transfer 1 3 ((sol_str_to_lamports "0.1234567891").getD 0)],
          blockhash := 9 } :=
  ⟨by decide,
    (build_transaction_tip_conversion noNonce 1 pfStd [] 9 0 false 3 "0.1234567891").2.2 rfl⟩

/-- A configuration with three buy tip amounts but only two sell tip
amounts. -/
def pfThreeTwo : PriorityFee :=
  { tip_unit_limit := 100000, tip_unit_price := 1000,
    rpc_unit_limit := 200000, rpc_unit_price := 2000,
    buy_tip_fees := ["0.1", "0.1", "0.1"], sell_tip_fees := ["0.2", "0.2"] }

/-- C2: failing input — a sell race with with_tip = true over three
tipped (Jito) endpoints and a 2-element sell tip list.  The sell-side
pre-flight check of parallel.rs lines 83-89 is gated on !with_tip, so no
configuration error is raised and all three sending tasks are spawned,
where the claim demands a fail-fast configuration error with zero network
sends. -/
theorem sell_with_tip_skips_preflight_check :
    parallel_execute_prepare [SwqosType.jito, SwqosType.jito, SwqosType.jito] pfThreeTwo
        false true
      = Except.ok
          [{ index := 0, swqos_type := SwqosType.jito, tip_amount := some "0.1" },
           { index := 1, swqos_type := SwqosType.jito, tip_amount := some "0.1" },
           { index := 2, swqos_type := SwqosType.jito, tip_amount := some "0.1" }]
    ∧ pfThreeTwo.sell_tip_fees.length = 2 :=
  ⟨rfl, rfl⟩

/-- C3: failing input — a sell race with one Jito endpoint, buy tip list
["0.1"] and sell tip list ["0.2"].  The spawned task reads its tip amount
from buy_tip_fees (parallel.rs line 112 indexes buy_tip_fees for sells
too), yielding "0.1" instead of the sell-list amount "0.2" the claim
assigns to position 0. -/
theorem sell_task_reads_buy_tip_list :
    parallel_execute_prepare [SwqosType.jito] pfStd false true
      = Except.ok [{ index := 0, swqos_type := SwqosType.jito, tip_amount := some "0.1" }]
    ∧ pfStd.sell_tip_fees[0]? = some "0.2"
    ∧ pfStd.buy_tip_fees[0]? = some "0.1"
    ∧ (("0.1" : TipAmount) = "0.2" → False) :=
  ⟨rfl, rfl, rfl, by decide⟩

/-- C1 counterexample: with wait_for_confirmation = false and completion
order [failure, success], the executor reads a single result from the
channel (parallel.rs lines 162-171) and returns the no-signature error —
not the one success, and not the per-endpoint aggregate — while the same
completion order under wait_for_confirmation = true resolves to the
success. -/
theorem race_no_wait_first_failure_loses :
    race_receive false [TaskOutcome.taskError "send failed", TaskOutcome.success 42]
      = Except.error RaceError.noSignature
    ∧ (race_receive false [TaskOutcome.taskError "send failed", TaskOutcome.success 42]
        = Except.ok 42 → False)
    ∧ race_receive true [TaskOutcome.taskError "send failed", TaskOutcome.success 42]
      = Except.ok 42 :=
  ⟨rfl, fun h => Except.noConfusion h, rfl⟩

/-- The receive loop returns the first success, for any prefix of
failures and any accumulated error list. -/
theorem raceLoop_first_success (pre : List TaskOutcome) (rest : List TaskOutcome)
    (sig : Signature) (acc : List String) (h : ∀ r ∈ pre, r.isSuccess = false) :
    raceLoop (pre ++ TaskOutcome.success sig :: rest) acc = Except.ok sig := by
  induction pre generalizing acc with
  | nil => simp [raceLoop]
  | cons r tl ih =>
    have hr := h r (by simp)
    cases r with
    | success s => simp [TaskOutcome.isSuccess] at hr
    | taskError e =>
      rw [List.cons_append, raceLoop]
      exact ih _ (fun x hx => h x (by simp [hx]))
    | joinError e =>
      rw [List.cons_append, raceLoop]
      exact ih _ (fun x hx => h x (by simp [hx]))

/-- The receive loop with no success aggregates one formatted message per
received failure, appended to the accumulator in arrival order. -/
theorem raceLoop_all_fail (l : List TaskOutcome) (acc : List String)
    (h : ∀ r ∈ l, r.isSuccess = false) :
    raceLoop l acc = Except.error (RaceError.allFailed (acc ++ l.map failMessage)) := by
  induction l generalizing acc with
  | nil => simp [raceLoop]
  | cons r tl ih =>
    have hr := h r (by simp)
    cases r with
    | success s => simp [TaskOutcome.isSuccess] at hr
    | taskError e =>
      rw [raceLoop, ih _ (fun x hx => h x (by simp [hx]))]
      simp
    | joinError e =>
      rw [raceLoop, ih _ (fun x hx => h x (by simp [hx]))]
      simp

/-- C1 amended: when wait_for_confirmation is true, the executor returns
the signature of the first success in completion order and fails with the
aggregate (one message per failed endpoint) exactly when every
participating endpoint fails; when wait_for_confirmation is false, the
executor inspects only the first completed result — it returns a
signature exactly when that first result is a success, and otherwise
fails with the no-signature error rather than the aggregate. -/
theorem race_receive_semantics :
    (∀ (pre rest : List TaskOutcome) (sig : Signature),
      (∀ r ∈ pre, r.isSuccess = false) →
      race_receive true (pre ++ TaskOutcome.success sig :: rest) = Except.ok sig)
    ∧ (∀ arrivals : List TaskOutcome,
      (∀ r ∈ arrivals, r.isSuccess = false) →
      race_receive true arrivals
        = Except.error (RaceError.allFailed (arrivals.map failMessage)))
    ∧ (∀ (arrivals : List TaskOutcome) (sig : Signature),
      race_receive false arrivals = Except.ok sig
        ↔ arrivals.head? = some (TaskOutcome.success sig)) := by
  refine ⟨fun pre rest sig h => ?_, fun arrivals h => ?_, fun arrivals sig => ?_⟩
  · exact raceLoop_first_success pre rest sig [] h
  · exact raceLoop_all_fail arrivals [] h
  · cases arrivals with
    | nil => simp [race_receive]
    | cons r tl => cases r <;> simp [race_receive]

/-- Witness for race_receive_semantics: a failure followed by a success
resolves to the success under wait_for_confirmation = true. -/
theorem race_receive_semantics_witness :
    race_receive true ([TaskOutcome.joinError "boom"] ++ TaskOutcome.success 7 :: [])
      = Except.ok 7 :=
  race_receive_semantics.1 [TaskOutcome.joinError "boom"] [] 7 (by decide)

/-- C7: the confirmation-retry loop runs at most 3 attempts (max_retries
= 2): it succeeds as soon as any attempt confirms after a prefix of
timed-out attempts, a non-timeout confirmation error on any attempt is
surfaced immediately with no further attempts, and three timed-out
attempts fail with the all-timeouts error.  (The 500 ms pause between
attempts, jito.rs line 192, is real time and outside the embedding.) -/
theorem confirm_retry_semantics (poll : Nat → PollOutcome) :
    (∀ k, k ≤ 2 → (∀ i, i < k → poll i = PollOutcome.timedOut) →
      poll k = PollOutcome.confirmed →
      confirm_transaction_with_retry poll = Except.ok ())
    ∧ (∀ k m, k ≤ 2 → (∀ i, i < k → poll i = PollOutcome.timedOut) →
      poll k = PollOutcome.otherError m →
      confirm_transaction_with_retry poll = Except.error (ConfirmError.other m))
    ∧ ((∀ i, i ≤ 2 → poll i = PollOutcome.timedOut) →
      confirm_transaction_with_retry poll
        = Except.error (ConfirmError.timedOutAfterRetries 3)) := by
  refine ⟨fun k hk hpre hc => ?_, fun k m hk hpre he => ?_, fun h => ?_⟩
  · interval_cases k
    · simp [confirm_transaction_with_retry, confirm_attempt_go, hc]
    · have h0 := hpre 0 (by omega)
      simp [confirm_transaction_with_retry, confirm_attempt_go, h0, hc]
    · have h0 := hpre 0 (by omega)
      have h1 := hpre 1 (by omega)
      simp [confirm_transaction_with_retry, confirm_attempt_go, h0, h1, hc]
  · interval_cases k
    · simp [confirm_transaction_with_retry, confirm_attempt_go, he]
    · have h0 := hpre 0 (by omega)
      simp [confirm_transaction_with_retry, confirm_attempt_go, h0, he]
    · have h0 := hpre 0 (by omega)
      have h1 := hpre 1 (by omega)
      simp [confirm_transaction_with_retry, confirm_attempt_go, h0, h1, he]
  · have h0 := h 0 (by omega)
    have h1 := h 1 (by omega)
    have h2 := h 2 (by omega)
    simp [confirm_transaction_with_retry, confirm_attempt_go, h0, h1, h2]

/-- A poll history that times out on the first attempt and confirms on
the second. -/
def pollTimeoutThenConfirm : Nat → PollOutcome :=
  fun attempt => if attempt = 0 then PollOutcome.timedOut else PollOutcome.confirmed

/-- Witness for confirm_retry_semantics: a timeout on attempt 0 followed
by a confirmation on attempt 1 makes the overall call succeed. -/
theorem confirm_retry_semantics_witness :
    confirm_transaction_with_retry pollTimeoutThenConfirm = Except.ok () :=
  (confirm_retry_semantics pollTimeoutThenConfirm).1 1 (by omega)
    (fun i hi => by
      have : i = 0 := by omega
      subst this
      rfl)
    rfl

/-- The transaction assembled for the C8 counterexample: buy, no nonce,
plain endpoint (no tip). -/
def txBuyPlain : VersionedTransaction :=
  { fee_payer := 1,
    instructions := [Instruction.setLoadedAccountsDataSizeLimit 512,
      Instruction.setComputeUnitPrice 2000,
      Instruction.setComputeUnitLimit 200000,
      Instruction.business 9],
    blockhash := 123 }

/-- C8 counterexample: a buy with no nonce configured and one plain
endpoint assembles THREE compute-budget instructions — the
data-size-limit instruction (emitted unconditionally for buys,
compute_budget_manager.rs line 46) plus unit-price and unit-limit — not
two as the claim states. -/
theorem buy_assembles_three_compute_budget :
    build_transaction noNonce 1 pfStd [Instruction.business 9] 123 512 true false 0 "0.1"
      = Except.ok txBuyPlain
    ∧ txBuyPlain.instructions.countP (fun i => i.isComputeBudget) = 3
    ∧ (txBuyPlain.instructions.countP (fun i => i.isComputeBudget) = 2 → False) :=
  ⟨rfl, rfl, by decide⟩

/-- C8 amended: for a buy with no nonce account configured and one
plain/default endpoint (so with_tip is false in the assembled plan), the
plan is exactly THREE compute-budget instructions (data-size-limit,
unit-price, unit-limit, drawn from the rpc fee pair) followed by the
business instructions verbatim, with no tip transfer and no nonce-advance
instruction. -/
theorem buy_plain_endpoint_plan (nonce : NonceInfo) (payer : Pubkey) (pf : PriorityFee)
    (business : List Instruction) (recent : LedgerHash) (dsl : Nat)
    (ta : Pubkey) (amt : TipAmount) (h : nonce.nonce_account = none) :
    build_transaction nonce payer pf business recent dsl true false ta amt
      = Except.ok
        { fee_payer := payer,
          instructions := [Instruction.setLoadedAccountsDataSizeLimit dsl,
            Instruction.setComputeUnitPrice pf.rpc_unit_price,
            Instruction.setComputeUnitLimit pf.rpc_unit_limit] ++ business,
          blockhash := recent }
    ∧ List.countP (fun i => i.isComputeBudget)
        [Instruction.setLoadedAccountsDataSizeLimit dsl,
         Instruction.setComputeUnitPrice pf.rpc_unit_price,
         Instruction.setComputeUnitLimit pf.rpc_unit_limit] = 3
    ∧ (business.countP (fun i => i.isAdvanceNonce) = 0 →
      ([Instruction.setLoadedAccountsDataSizeLimit dsl,
        Instruction.setComputeUnitPrice pf.rpc_unit_price,
        Instruction.setComputeUnitLimit pf.rpc_unit_limit] ++ business).countP
          (fun i => i.isAdvanceNonce) = 0) := by
  refine ⟨?_, ?_, ?_⟩
  · simp [build_transaction, add_nonce_instruction, h, add_compute_budget_instructions,
      compute_budget_instructions, get_transaction_blockhash]
  · simp [List.countP_cons, Instruction.isComputeBudget]
  · intro hb
    rw [List.countP_append, hb]
    rfl

/-- Witness for buy_plain_endpoint_plan at the concrete no-nonce state. -/
theorem buy_plain_endpoint_plan_witness :
    build_transaction noNonce 1 pfStd [Instruction.business 9] 123 512 true false 0 "0.2"
      = Except.ok
        { fee_payer := 1,
          instructions := [Instruction.setLoadedAccountsDataSizeLimit 512,
            Instruction.setComputeUnitPrice pfStd.rpc_unit_price,
            Instruction.setComputeUnitLimit pfStd.rpc_unit_limit] ++ [Instruction.business 9],
          blockhash := 123 } :=
  (buy_plain_endpoint_plan noNonce 1 pfStd [Instruction.business 9] 123 512 0 "0.2" rfl).1

/-! Lemmas about the LRU cache model. -/

/-- get_cached_instructions preserves the cache capacity. -/
theorem get_cached_capacity (c : CLruCache InstructionCacheKey (List Instruction))
    (k : InstructionCacheKey) (f : Unit → List Instruction) :
    ((get_cached_instructions c k f).2).capacity = c.capacity := by
  cases hp : c.peek k <;> simp [get_cached_instructions, hp, CLruCache.put]

/-- A peek miss is exactly the absence of the key among the entries. -/
theorem peek_eq_none_iff (c : CLruCache InstructionCacheKey (List Instruction))
    (k : InstructionCacheKey) :
    c.peek k = none ↔ ∀ p ∈ c.entries, p.1 ≠ k := by
  simp [CLruCache.peek, List.find?_eq_none]

/-- On a hit, get_cached_instructions leaves the cache unchanged (the read
goes through peek, which does not touch the LRU order). -/
theorem get_cached_hit (c : CLruCache InstructionCacheKey (List Instruction))
    (k : InstructionCacheKey) (f : Unit → List Instruction)
    (h : (c.peek k).isSome = true) :
    (get_cached_instructions c k f).2 = c := by
  cases hp : c.peek k with
  | none => rw [hp] at h; cases h
  | some v => simp [get_cached_instructions, hp]

/-- On a miss, get_cached_instructions puts the computed value. -/
theorem get_cached_miss (c : CLruCache InstructionCacheKey (List Instruction))
    (k : InstructionCacheKey) (f : Unit → List Instruction)
    (h : c.peek k = none) :
    (get_cached_instructions c k f).2 = c.put k (f ()) := by
  simp [get_cached_instructions, h]

/-- Putting a key absent from the entries conses it at the
most-recently-used end and truncates to capacity (evicting from the
least-recently-used end). -/
theorem put_fresh (c : CLruCache InstructionCacheKey (List Instruction))
    (k : InstructionCacheKey) (v : List Instruction)
    (h : ∀ p ∈ c.entries, p.1 ≠ k) :
    (c.put k v).entries = ((k, v) :: c.entries).take c.capacity := by
  unfold CLruCache.put
  rw [List.eraseP_of_forall_not]
  intro a ha
  simpa using h a ha

/-- get_cached_instructions keeps the entry count within the capacity. -/
theorem get_cached_length_le (c : CLruCache InstructionCacheKey (List Instruction))
    (k : InstructionCacheKey) (f : Unit → List Instruction)
    (h : c.entries.length ≤ c.capacity) :
    ((get_cached_instructions c k f).2).entries.length ≤ c.capacity := by
  cases hp : c.peek k with
  | none =>
    rw [get_cached_miss c k f hp]
    exact le_trans (List.length_take_le _ _) le_rfl
  | some v =>
    rw [get_cached_hit c k f (by simp [hp])]
    exact h

/-- cacheInsertAll preserves the capacity. -/
theorem cacheInsertAll_capacity (ks : List InstructionCacheKey)
    (c : CLruCache InstructionCacheKey (List Instruction))
    (f : InstructionCacheKey → List Instruction) :
    (cacheInsertAll c ks f).capacity = c.capacity := by
  induction ks generalizing c with
  | nil => rfl
  | cons k tl ih =>
    show (cacheInsertAll ((get_cached_instructions c k (fun _ => f k)).2) tl f).capacity
      = c.capacity
    rw [ih, get_cached_capacity]

/-- cacheInsertAll keeps the entry count within the capacity. -/
theorem cacheInsertAll_length_le (ks : List InstructionCacheKey)
    (c : CLruCache InstructionCacheKey (List Instruction))
    (f : InstructionCacheKey → List Instruction)
    (h : c.entries.length ≤ c.capacity) :
    (cacheInsertAll c ks f).entries.length ≤ c.capacity := by
  induction ks generalizing c with
  | nil => exact h
  | cons k tl ih =>
    show (cacheInsertAll ((get_cached_instructions c k (fun _ => f k)).2) tl f).entries.length
      ≤ c.capacity
    have h1 := get_cached_length_le c k (fun _ => f k) h
    have h2 := get_cached_capacity c k (fun _ => f k)
    have := ih ((get_cached_instructions c k (fun _ => f k)).2) (by rw [h2]; exact h1)
    rw [h2] at this
    exact this

/-- cacheInsertAll distributes over list append. -/
theorem cacheInsertAll_append (c : CLruCache InstructionCacheKey (List Instruction))
    (l1 l2 : List InstructionCacheKey) (f : InstructionCacheKey → List Instruction) :
    cacheInsertAll c (l1 ++ l2) f = cacheInsertAll (cacheInsertAll c l1 f) l2 f := by
  simp [cacheInsertAll, List.foldl_append]

/-- The distinct keys used to exercise the cache: per-payer
close-wSOL-account keys. -/
def ckey (i : Nat) : InstructionCacheKey :=
  InstructionCacheKey.closeWsolAccount i 0

/-- The (constant) computed value used to exercise the cache. -/
def cval : InstructionCacheKey → List Instruction := fun _ => []

/-- ckey is injective. -/
theorem ckey_inj {i j : Nat} (h : ckey i = ckey j) : i = j := by
  simpa [ckey] using h

/-- Feeding the n distinct keys ckey 0 .. ckey (n-1) into an empty cache of
capacity at least n stores them all, most recently inserted first. -/
theorem insertAll_range_entries (cap n : Nat) (h : n ≤ cap) :
    (cacheInsertAll (CLruCache.emptyCache InstructionCacheKey (List Instruction) cap)
      ((List.range n).map ckey) cval).entries
    = (List.range n).reverse.map (fun i => (ckey i, cval (ckey i))) := by
  induction n with
  | zero => simp [cacheInsertAll, CLruCache.emptyCache]
  | succ m ih =>
    have hm : m ≤ cap := by omega
    rw [List.range_succ m, List.map_append, cacheInsertAll_append]
    set S := cacheInsertAll (CLruCache.emptyCache InstructionCacheKey (List Instruction) cap)
      ((List.range m).map ckey) cval with hS
    have hent : S.entries = (List.range m).reverse.map (fun i => (ckey i, cval (ckey i))) :=
      ih hm
    have hcap : S.capacity = cap := by
      rw [hS, cacheInsertAll_capacity]
      rfl
    have hfresh : ∀ p ∈ S.entries, p.1 ≠ ckey m := by
      intro p hp
      rw [hent] at hp
      rcases List.mem_map.mp hp with ⟨i, hi, rfl⟩
      have : i < m := List.mem_range.mp (List.mem_reverse.mp hi)
      intro hc
      exact absurd (ckey_inj hc) (by omega)
    have hnone : S.peek (ckey m) = none := (peek_eq_none_iff S (ckey m)).mpr hfresh
    show (cacheInsertAll S [ckey m] cval).entries = _
    have hstep : cacheInsertAll S [ckey m] cval
        = (get_cached_instructions S (ckey m) (fun _ => cval (ckey m))).2 := rfl
    rw [hstep, get_cached_miss S (ckey m) _ hnone, put_fresh S (ckey m) _ hfresh, hcap, hent]
    have hlen : ((ckey m, cval (ckey m))
        :: (List.range m).reverse.map (fun i => (ckey i, cval (ckey i)))).length = m + 1 := by
      simp
    rw [List.take_of_length_le (by rw [hlen]; omega)]
    simp [List.reverse_append]

/-- The instruction cache at startup: an empty CLruCache of the fixed
capacity MAX_INSTRUCTION_CACHE_SIZE (fast_fn.rs lines 35-38). -/
def instructionCacheStart : CLruCache InstructionCacheKey (List Instruction) :=
  CLruCache.emptyCache InstructionCacheKey (List Instruction) MAX_INSTRUCTION_CACHE_SIZE

/-- The cache after filling it with the 10000 distinct keys
ckey 0 .. ckey 9999 (ckey 0 inserted first, hence least recently
inserted). -/
def c9Filled : CLruCache InstructionCacheKey (List Instruction) :=
  cacheInsertAll instructionCacheStart ((List.range 10000).map ckey) cval

/-- The cache-state component of one get_cached_instructions call: the
cache unchanged on a hit, the put cache on a miss (see
get_cached_state_eq). -/
def cacheStep (cache : CLruCache InstructionCacheKey (List Instruction))
    (cache_key : InstructionCacheKey) (compute_fn : Unit → List Instruction) :
    CLruCache InstructionCacheKey (List Instruction) :=
  match cache.peek cache_key with
  | some _ => cache
  | none => cache.put cache_key (compute_fn ())

/-- cacheStep is exactly the cache returned by get_cached_instructions. -/
theorem get_cached_state_eq (c : CLruCache InstructionCacheKey (List Instruction))
    (k : InstructionCacheKey) (f : Unit → List Instruction) :
    (get_cached_instructions c k f).2 = cacheStep c k f := by
  cases hp : c.peek k <;> simp [get_cached_instructions, cacheStep, hp]

/-- On a hit, cacheStep leaves the cache unchanged. -/
theorem cacheStep_hit (c : CLruCache InstructionCacheKey (List Instruction))
    (k : InstructionCacheKey) (f : Unit → List Instruction)
    (h : (c.peek k).isSome = true) : cacheStep c k f = c := by
  cases hp : c.peek k with
  | none => rw [hp] at h; cases h
  | some v => simp [cacheStep, hp]

/-- On a miss, cacheStep puts the computed value. -/
theorem cacheStep_miss (c : CLruCache InstructionCacheKey (List Instruction))
    (k : InstructionCacheKey) (f : Unit → List Instruction)
    (h : c.peek k = none) : cacheStep c k f = c.put k (f ()) := by
  simp [cacheStep, h]

/-- The cache after a read (cache hit) of ckey 0 through
get_cached_instructions (whose cache component is cacheStep, by
get_cached_state_eq). -/
def c9AfterHit : CLruCache InstructionCacheKey (List Instruction) :=
  cacheStep c9Filled (ckey 0) (fun _ => cval (ckey 0))

/-- The cache after inserting the fresh key ckey 10000 into the full
cache, right after the hit on ckey 0. -/
def c9Final : CLruCache InstructionCacheKey (List Instruction) :=
  cacheStep c9AfterHit (ckey 10000) (fun _ => cval (ckey 10000))

/-- The entries of the filled cache, most recently inserted first. -/
theorem c9Filled_entries :
    c9Filled.entries = (List.range 10000).reverse.map (fun i => (ckey i, cval (ckey i))) :=
  insertAll_range_entries 10000 10000 le_rfl

/-- The hit on ckey 0 leaves the cache unchanged: the read goes through
peek and does not update the LRU order. -/
theorem c9AfterHit_eq : c9AfterHit = c9Filled := by
  have hmem : (ckey 0, cval (ckey 0)) ∈ c9Filled.entries := by
    rw [c9Filled_entries]
    exact List.mem_map.mpr ⟨0, List.mem_reverse.mpr (List.mem_range.mpr (by omega)), rfl⟩
  have hfs : (List.find? (fun p => decide (p.1 = ckey 0)) c9Filled.entries).isSome :=
    List.find?_isSome.mpr ⟨(ckey 0, cval (ckey 0)), hmem, by simp⟩
  obtain ⟨p, hp⟩ := Option.isSome_iff_exists.mp hfs
  have hsome : (c9Filled.peek (ckey 0)).isSome = true := by
    rw [CLruCache.peek, hp]
    rfl
  have hdef : c9AfterHit = cacheStep c9Filled (ckey 0) (fun _ => cval (ckey 0)) := rfl
  rw [hdef, cacheStep_hit c9Filled (ckey 0) (fun _ => cval (ckey 0)) hsome]

/-- The filled cache decomposed with its least-recently-inserted entry
(ckey 0) last. -/
theorem c9Filled_entries_decomp :
    c9Filled.entries
      = ((List.range 9999).map Nat.succ).reverse.map (fun i => (ckey i, cval (ckey i)))
        ++ [(ckey 0, cval (ckey 0))] := by
  rw [c9Filled_entries]
  rw [show (10000 : Nat) = 9999 + 1 from rfl, List.range_succ_eq_map 9999]
  simp

/-- The final cache: ckey 10000 in front, ckey 0 evicted. -/
theorem c9Final_entries :
    c9Final.entries
      = (ckey 10000, cval (ckey 10000))
        :: ((List.range 9999).map Nat.succ).reverse.map (fun i => (ckey i, cval (ckey i))) := by
  have hfresh : ∀ p ∈ c9AfterHit.entries, p.1 ≠ ckey 10000 := by
    intro p hp
    rw [c9AfterHit_eq, c9Filled_entries] at hp
    rcases List.mem_map.mp hp with ⟨i, hi, rfl⟩
    have : i < 10000 := List.mem_range.mp (List.mem_reverse.mp hi)
    intro hc
    exact absurd (ckey_inj hc) (by omega)
  have hnone : c9AfterHit.peek (ckey 10000) =
      none := (peek_eq_none_iff c9AfterHit (ckey 10000)).mpr hfresh
  have hcap : c9AfterHit.capacity = MAX_INSTRUCTION_CACHE_SIZE := by
    rw [c9AfterHit_eq]
    exact cacheInsertAll_capacity _ _ _
  have hdef : c9Final = cacheStep c9AfterHit (ckey 10000) (fun _ => cval (ckey 10000)) := rfl
  rw [hdef, cacheStep_miss _ _ _ hnone, put_fresh _ _ _ hfresh, hcap]
  rw [c9AfterHit_eq, c9Filled_entries_decomp]
  have hlen : (((List.range 9999).map Nat.succ).reverse.map
      (fun i => (ckey i, cval (ckey i)))).length = 9999 := by
    simp
  rw [show (MAX_INSTRUCTION_CACHE_SIZE : Nat) = 9999 + 1 from rfl, List.take_succ_cons]
  rw [List.take_left' hlen]

/-- C9 counterexample: fill the cache with the 10000 distinct keys
ckey 0 .. ckey 9999, read ckey 0 through get_cached_instructions (a cache
hit), then insert the fresh key ckey 10000.  Under the claimed policy the
hit counts as a use, so ckey 0 is the most recently used entry and ckey 1
is the least recently used one to be evicted; the code evicts ckey 0 (the
hit reads through clru's peek, which does not update the LRU order, and
the read cache is returned unchanged), while ckey 1 is retained. -/
theorem cache_hit_not_counted_as_use :
    (∀ v, (ckey 0, v) ∈ c9Final.entries → False)
    ∧ (ckey 1, cval (ckey 1)) ∈ c9Final.entries
    ∧ c9AfterHit = c9Filled := by
  refine ⟨?_, ?_, c9AfterHit_eq⟩
  · intro v hv
    rw [c9Final_entries] at hv
    rcases List.mem_cons.mp hv with hv | hv
    · exact absurd (ckey_inj (congrArg Prod.fst hv)) (by omega)
    · rcases List.mem_map.mp hv with ⟨i, hi, hchk⟩
      have h0 : ckey i = ckey 0 := congrArg Prod.fst hchk
      have : i = 0 := ckey_inj h0
      subst this
      rcases List.mem_map.mp (List.mem_reverse.mp hi) with ⟨j, _, hj⟩
      exact Nat.succ_ne_zero j hj
  · rw [c9Final_entries]
    refine List.mem_cons_of_mem _ (List.mem_map.mpr ⟨1, ?_, rfl⟩)
    exact List.mem_reverse.mpr (List.mem_map.mpr ⟨0, List.mem_range.mpr (by omega), rfl⟩)

/-- C9 amended: the entry count of the instruction cache never exceeds the
capacity 10000 fixed at construction, and eviction removes the least
recently INSERTED entry: a read through get_cached_instructions is a peek
that leaves the cache (and hence the LRU order) unchanged, so cache hits
do not count as uses, and inserting a fresh key into a full cache evicts
the entry at the least-recently-inserted end. -/
theorem cache_capacity_and_eviction :
    (∀ (keys : List InstructionCacheKey) (f : InstructionCacheKey → List Instruction),
      (cacheInsertAll instructionCacheStart keys f).entries.length
        ≤ MAX_INSTRUCTION_CACHE_SIZE)
    ∧ (∀ (c : CLruCache InstructionCacheKey (List Instruction)) (k : InstructionCacheKey)
        (f : Unit → List Instruction),
      (c.peek k).isSome = true → (get_cached_instructions c k f).2 = c)
    ∧ (∀ (c : CLruCache InstructionCacheKey (List Instruction)) (k : InstructionCacheKey)
        (f : Unit → List Instruction),
      0 < c.capacity → c.entries.length = c.capacity → c.peek k = none →
      (get_cached_instructions c k f).2.entries = (k, f ()) :: c.entries.dropLast) := by
  refine ⟨fun keys f => ?_, fun c k f h => get_cached_hit c k f h, fun c k f hpos hfull hnone => ?_⟩
  · exact cacheInsertAll_length_le keys instructionCacheStart f (by simp [instructionCacheStart, CLruCache.emptyCache])
  · rw [get_cached_miss _ _ _ hnone,
      put_fresh _ _ _ ((peek_eq_none_iff c k).mp hnone)]
    obtain ⟨m, hm⟩ : ∃ m, c.capacity = m + 1 := ⟨c.capacity - 1, by omega⟩
    rw [hm, List.take_succ_cons, List.dropLast_eq_take]
    rw [hfull, hm, Nat.add_sub_cancel]

/-- A full one-entry cache used by the eviction witness. -/
def smallCache : CLruCache InstructionCacheKey (List Instruction) :=
  (CLruCache.emptyCache InstructionCacheKey (List Instruction) 1).put (ckey 0) []

/-- Witness for cache_capacity_and_eviction: inserting ckey 1 into the
full one-entry cache holding ckey 0 evicts ckey 0. -/
theorem cache_capacity_and_eviction_witness :
    (get_cached_instructions smallCache (ckey 1) (fun _ => [])).2.entries
      = (ckey 1, []) :: smallCache.entries.dropLast :=
  cache_capacity_and_eviction.2.2 smallCache (ckey 1) (fun _ => [])
    (by decide) (by decide) (by decide)

end SolTradeSdk
